import Mathlib

/-
Verification development for the GOES X-ray sensor analysis module
(goes.py): temperature / emission-measure estimation from GOES/XRS
fluxes, radiative-loss and X-ray-luminosity integration, and the
lightcurve orchestration wrappers.

Modelling conventions, used throughout:
  * numpy float64 arrays are modelled as `List ℚ`; float literals such
    as 0.7, 0.85, 4.43/5.32, 1e-10, 3e-8, 0.003 are modelled as the
    exact rationals they denote in the source text;
  * `datetime.datetime` values are modelled as year/month/day triples
    with lexicographic comparison (`PyDate`), which is how Python
    compares datetimes;
  * `numpy.datetime64[ms]` timestamps are modelled as integers counting
    milliseconds (`ℤ`); a numpy `timedelta64[ms]` divided by an integer
    stays an integer count of milliseconds, rounded toward minus
    infinity, which is modelled by `Int.fdiv`;
  * Python exceptions are modelled by `GoesErr`, one constructor per
    exception class appearing in the module (`ValueError`, `IOError`,
    `TypeError`, `NameError`, `KeyError`, `IndexError`,
    `AttributeError`) plus numpy's broadcast failure (a `ValueError`
    in Python, kept separate here to record where it comes from);
    fallible functions return `Except GoesErr α`;
  * the CHIANTI reference tables are external csv files; a loaded
    table is passed in as explicit `List ℚ` columns, and the fitted
    scipy spline (`splrep`/`splev`) is passed in as an abstract
    evaluation function `ℚ → ℚ`, as are `10.0 ** x` and `log10`;
  * numpy 1-d broadcasting (`bmulQ`): arrays multiply elementwise when
    the lengths agree, a length-1 array broadcasts against any length,
    anything else raises.
-/

deriving instance DecidableEq for Except

/-- Python exception classes raised by the module (plus numpy broadcast
failure, which Python reports as a `ValueError`). -/
inductive GoesErr where
  | valueError
  | ioError
  | typeError
  | nameError
  | keyError
  | indexError
  | attributeError
  | broadcastError
deriving DecidableEq

/-- A Python `datetime` date, compared lexicographically. -/
structure PyDate where
  year : Int
  month : Int
  day : Int
deriving DecidableEq

/-- Lexicographic date comparison, as Python compares `datetime` objects. -/
def pyDateLt (a b : PyDate) : Bool :=
  decide (a.year < b.year ∨ (a.year = b.year ∧
    (a.month < b.month ∨ (a.month = b.month ∧ a.day < b.day))))

/-- The GOES-6 calibration cutoff date `datetime.datetime(1983, 06, 28)`. -/
def goes6Cutoff : PyDate := ⟨1983, 6, 28⟩

/-- Satellite- and date-dependent flux correction of `goes_chianti_tem`
(goes.py lines 280-293): GOES-6 long-channel fluxes before 1983-06-28
are scaled by 4.43/5.32; for satellites after GOES-7 the long flux is
divided by 0.7 and the short flux by 0.85. Returns
(longflux_corrected, shortflux_corrected). -/
def longfluxDateCorrected (satellite : ℤ) (date : PyDate) (longflux : List ℚ) :
    List ℚ :=
  if pyDateLt date goes6Cutoff = true ∧ satellite = 6 then
    longflux.map (· * (4.43 / 5.32))
  else longflux

/-- The second correction step of `goes_chianti_tem`: for satellites
after GOES-7 the date-corrected long flux is divided by 0.7 and the
short flux by 0.85. Returns (longflux_corrected, shortflux_corrected). -/
def correctedFluxes (satellite : ℤ) (date : PyDate) (longflux shortflux : List ℚ) :
    List ℚ × List ℚ :=
  if 7 < satellite then
    ((longfluxDateCorrected satellite date longflux).map (· / 0.7),
      shortflux.map (· / 0.85))
  else (longfluxDateCorrected satellite date longflux, shortflux)

/-- Short/long flux ratio with the data-quality mask of
`goes_chianti_tem` (goes.py lines 294-300): positions where the
corrected short flux is below 1e-10 or the corrected long flux is below
3e-8 get the sentinel ratio 0.003; all others get the elementwise
quotient.  In the source the quotient array is computed first and the
masked positions are then overwritten, which is elementwise identical. -/
def computeRatios (shortc longc : List ℚ) : List ℚ :=
  List.zipWith
    (fun s l => if s < 1e-10 ∨ l < 3e-8 then 0.003 else s / l) shortc longc

/-- Division of a millisecond count by 2 as numpy performs it on
`timedelta64[ms]` values: integer division rounding toward minus
infinity, staying in whole milliseconds. -/
def halfMs (d : ℤ) : ℤ := Int.fdiv d 2

/-- Model of `_time_intervals` (goes.py lines 1143-1158).  Input
timestamps are integer milliseconds (`datetime64[ms]`).  Fewer than two
timestamps raise `IOError`.  With exactly two, both weights are half the
(single) difference; otherwise the interior weights are half the
centred differences with half the first/last step prepended/appended.
All millisecond values are finally converted to seconds. -/
def time_intervals (obstime : List ℤ) : Except GoesErr (List ℚ) :=
  if obstime.length < 2 then .error .ioError
  else if obstime.length = 2 then
    .ok [(halfMs (obstime.getD 1 0 - obstime.getD 0 0) : ℚ) / 1000,
      (halfMs (obstime.getD 1 0 - obstime.getD 0 0) : ℚ) / 1000]
  else
    .ok (((halfMs (obstime.getD 1 0 - obstime.getD 0 0) ::
        List.zipWith (fun a b => halfMs (a - b))
          (obstime.drop 2) (obstime.take (obstime.length - 2))) ++
      [halfMs (obstime.getD (obstime.length - 1) 0 -
        obstime.getD (obstime.length - 2) 0)]).map
      (fun d => ((d : ℤ) : ℚ) / 1000))

/-- The weight at index `i` claimed by the specification: half the
centred difference for interior points, half the first/last step at the
ends, converted from milliseconds to seconds with no rounding. -/
def specWeightAt (ts : List ℤ) (i : Nat) : ℚ :=
  if i = 0 then ((ts.getD 1 0 - ts.getD 0 0 : ℤ) : ℚ) / 2 / 1000
  else if i = ts.length - 1 then
    ((ts.getD (ts.length - 1) 0 - ts.getD (ts.length - 2) 0 : ℤ) : ℚ) / 2 / 1000
  else ((ts.getD (i + 1) 0 - ts.getD (i - 1) 0 : ℤ) : ℚ) / 2 / 1000

/-- The full weight sequence claimed by the specification (exact
halving, in seconds). -/
def specWeights (ts : List ℤ) : List ℚ :=
  (List.range ts.length).map (specWeightAt ts)

/-- The weight at index `i` actually produced by the code: as
`specWeightAt`, but with the halving floored to whole milliseconds
before the conversion to seconds. -/
def msWeightAt (ts : List ℤ) (i : Nat) : ℚ :=
  if i = 0 then (halfMs (ts.getD 1 0 - ts.getD 0 0) : ℚ) / 1000
  else if i = ts.length - 1 then
    (halfMs (ts.getD (ts.length - 1) 0 - ts.getD (ts.length - 2) 0) : ℚ) / 1000
  else (halfMs (ts.getD (i + 1) 0 - ts.getD (i - 1) 0) : ℚ) / 1000

/-- The weight sequence actually produced by the code, as an index
formula. -/
def msWeights (ts : List ℤ) : List ℚ :=
  (List.range ts.length).map (msWeightAt ts)

/-- `np.min` on a nonempty rational array (`0` for the empty array,
which the callers guard against). -/
def npMinQ : List ℚ → ℚ
  | [] => 0
  | x :: xs => xs.foldl min x

/-- `np.max` on a nonempty rational array. -/
def npMaxQ : List ℚ → ℚ
  | [] => 0
  | x :: xs => xs.foldl max x

/-- numpy 1-d broadcasting multiplication: elementwise for equal
lengths, a length-1 operand broadcasts, and any other shape
combination raises. -/
def bmulQ (xs ys : List ℚ) : Except GoesErr (List ℚ) :=
  if xs.length = ys.length then .ok (List.zipWith (· * ·) xs ys)
  else if xs.length = 1 then .ok (ys.map (fun y => xs.headD 0 * y))
  else if ys.length = 1 then .ok (xs.map (fun x => x * ys.headD 0))
  else .error .broadcastError

/-- The cumulative-energy loop shared by `calc_rad_loss` and `goes_lx`:
for each `i` in `range n` (with `n` the number of timestamps), the sum
of `rate[:i+1] * dt[:i+1]`, each product computed with numpy
broadcasting. -/
def cumulSums (rate dt : List ℚ) (n : Nat) : Except GoesErr (List ℚ) :=
  (List.range n).mapM (fun i =>
    (bmulQ (rate.take (i + 1)) (dt.take (i + 1))).map List.sum)

/-- Output dictionary of `calc_rad_loss`: the per-sample rates always,
the integrated total when `obstime` is given, the running cumulative
sums when additionally `cumulative` is set. -/
structure RadLossOut where
  rate : List ℚ
  radLossInt : Option ℚ
  radLossCumul : Option (List ℚ)
deriving DecidableEq

/-- The part of `calc_rad_loss` (goes.py lines 778-811) before the
`obstime` branch: validate that the temperatures (converted to K by the
factor 1e6) lie inside the loss-rate table domain, then multiply the
emission measures by the interpolated loss rate per unit emission
measure.  `splev` stands for evaluation of the scipy spline fitted to
the loaded table; `modeltemp` is the table's temperature column. -/
def calcRate (splev : ℚ → ℚ) (modeltemp : List ℚ) (temp em : List ℚ) :
    Except GoesErr (List ℚ) :=
  if temp = [] ∨ modeltemp = [] then .error .valueError
  else if npMinQ (temp.map (· * 1000000)) < npMinQ modeltemp ∨
      npMaxQ modeltemp < npMaxQ (temp.map (· * 1000000)) then .error .valueError
  else bmulQ em (temp.map (fun t => splev (t * 1000000)))

/-- Model of `calc_rad_loss` (goes.py lines 702-853).  After the rate
computation: with `obstime` given, the (buggy, chained) length check
`len(temp) != len(em) != len(obstime)` raises only when both
inequalities hold; then the interval weights are computed, a
non-positive minimum weight raises, the integrated total is the
broadcast product summed, and with `cumulative` also the running sums.
With no `obstime`, `cumulative = true` raises `IOError`. -/
def calc_rad_loss (splev : ℚ → ℚ) (modeltemp : List ℚ) (temp em : List ℚ)
    (obstime : Option (List ℤ)) (cumulative : Bool) : Except GoesErr RadLossOut :=
  match calcRate splev modeltemp temp em with
  | .error e => .error e
  | .ok rate =>
    match obstime with
    | none =>
      if cumulative then .error .ioError
      else .ok ⟨rate, none, none⟩
    | some ts =>
      if temp.length ≠ em.length ∧ em.length ≠ ts.length then .error .valueError
      else
        match time_intervals ts with
        | .error e => .error e
        | .ok dt =>
          if npMinQ dt ≤ 0 then .error .valueError
          else
            match bmulQ rate dt with
            | .error e => .error e
            | .ok prods =>
              if cumulative then
                match cumulSums rate dt ts.length with
                | .error e => .error e
                | .ok cum => .ok ⟨rate, some prods.sum, some cum⟩
              else .ok ⟨rate, some prods.sum, none⟩

/-- The astronomical unit in metres, `sun.constants.au.value`. -/
def auMetres : ℚ := 149597870691

/-- Model of `_calc_xraylum` (goes.py lines 1049-1097): luminosity
assuming isotropic emission over a sphere of radius the Sun-Earth
distance.  `piQ` stands for `np.pi` and `dist` for
`sun.sunearth_distance(t=date)` in AU (`1` when no date is given). -/
def calc_xraylum (piQ dist : ℚ) (flux : List ℚ) : List ℚ :=
  flux.map (fun f => 4 * piQ * (auMetres * dist) ^ 2 * 10 ^ 7 * f)

/-- Output dictionary of `goes_lx`. -/
structure LxOut where
  longlum : List ℚ
  shortlum : List ℚ
  longlumInt : Option ℚ
  shortlumInt : Option ℚ
  longlumCumul : Option (List ℚ)
  shortlumCumul : Option (List ℚ)
  dtOut : Option (List ℚ)
deriving DecidableEq

/-- Model of `goes_lx` (goes.py lines 917-1047): per-channel
luminosities always; with `obstime` the same (buggy, chained) length
check, interval weights, chronology check, integrated totals and
optional cumulative sums as `calc_rad_loss`, applied to each channel. -/
def goes_lx (piQ dist : ℚ) (longflux shortflux : List ℚ)
    (obstime : Option (List ℤ)) (cumulative : Bool) : Except GoesErr LxOut :=
  let longlum := calc_xraylum piQ dist longflux
  let shortlum := calc_xraylum piQ dist shortflux
  match obstime with
  | none =>
    if cumulative then .error .ioError
    else .ok ⟨longlum, shortlum, none, none, none, none, none⟩
  | some ts =>
    if longflux.length ≠ shortflux.length ∧ shortflux.length ≠ ts.length then
      .error .valueError
    else
      match time_intervals ts with
      | .error e => .error e
      | .ok dt =>
        if npMinQ dt ≤ 0 then .error .valueError
        else
          match bmulQ longlum dt, bmulQ shortlum dt with
          | .error e, _ => .error e
          | .ok _, .error e => .error e
          | .ok lp, .ok sp =>
            if cumulative then
              match cumulSums longlum dt ts.length, cumulSums shortlum dt ts.length with
              | .error e, _ => .error e
              | .ok _, .error e => .error e
              | .ok lcum, .ok scum =>
                .ok ⟨longlum, shortlum, some lp.sum, some sp.sum,
                  some lcum, some scum, some dt⟩
            else .ok ⟨longlum, shortlum, some lp.sum, some sp.sum,
              none, none, some dt⟩

/-- The abundance strings accepted by the estimators. -/
def abundCoronal : String := "coronal"

/-- The photospheric abundance string. -/
def abundPhotospheric : String := "photospheric"

/-- Model of `_goes_get_chianti_temp` (goes.py lines 311-451): validate
the satellite number and the abundance string, then require every flux
ratio to lie within the ratio column of the loaded table (empty arrays
raise inside `np.min`); on success evaluate the fitted spline at each
ratio and raise 10 to the result.  `splev` stands for the fitted
spline, `pow10` for `10.0 ** x`; `modelratio` is the table's ratio
column for the selected satellite. -/
def goes_get_chianti_temp (splev pow10 : ℚ → ℚ) (modelratio : List ℚ)
    (fluxratio : List ℚ) (satellite : ℤ) (abundances : String) :
    Except GoesErr (List ℚ) :=
  if satellite < 1 then .error .valueError
  else if ¬(abundances = abundCoronal ∨ abundances = abundPhotospheric) then
    .error .valueError
  else if fluxratio = [] ∨ modelratio = [] then .error .valueError
  else if npMinQ fluxratio < npMinQ modelratio ∨
      npMaxQ modelratio < npMaxQ fluxratio then .error .valueError
  else .ok (fluxratio.map (fun r => pow10 (splev r)))

/-- A numpy float64 value as needed for the `_goes_get_chianti_em`
domain check: finite, an infinity, or NaN. -/
inductive NpF where
  | nan
  | ninf
  | fin (q : ℚ)
  | inf
deriving DecidableEq

/-- IEEE-754 `<` on modelled floats: NaN compares false against
everything. -/
def npLtF : NpF → NpF → Bool
  | NpF.nan, _ => false
  | _, NpF.nan => false
  | NpF.ninf, NpF.ninf => false
  | NpF.ninf, _ => true
  | NpF.fin _, NpF.ninf => false
  | NpF.fin a, NpF.fin b => decide (a < b)
  | NpF.fin _, NpF.inf => true
  | NpF.inf, _ => false

/-- NaN test. -/
def isnanF : NpF → Bool
  | NpF.nan => true
  | _ => false

/-- Pairwise minimum as `np.min` reduces: NaN propagates. -/
def fminF (a b : NpF) : NpF :=
  match a, b with
  | NpF.nan, _ => NpF.nan
  | _, NpF.nan => NpF.nan
  | x, y => if npLtF x y then x else y

/-- Pairwise maximum as `np.max` reduces: NaN propagates. -/
def fmaxF (a b : NpF) : NpF :=
  match a, b with
  | NpF.nan, _ => NpF.nan
  | _, NpF.nan => NpF.nan
  | x, y => if npLtF x y then y else x

/-- `np.min` over modelled floats (NaN for the empty array, which is
guarded against before use). -/
def npMinF : List NpF → NpF
  | [] => NpF.nan
  | x :: xs => xs.foldl fminF x

/-- `np.max` over modelled floats. -/
def npMaxF : List NpF → NpF
  | [] => NpF.nan
  | x :: xs => xs.foldl fmaxF x

/-- `np.log10` on a modelled float: NaN for negative arguments (and for
NaN and -inf), -inf at zero, and the abstract logarithm `lg` on
positive finite values. -/
def npLog10 (lg : ℚ → ℚ) : NpF → NpF
  | NpF.nan => NpF.nan
  | NpF.ninf => NpF.nan
  | NpF.inf => NpF.inf
  | NpF.fin q => if q < 0 then NpF.nan else if q = 0 then NpF.ninf else NpF.fin (lg q)

/-- The rational carried by a finite modelled float (`0` otherwise;
only applied to values that passed the domain check, which are finite). -/
def finValD : NpF → ℚ
  | NpF.fin q => q
  | _ => 0

/-- Model of `_goes_get_chianti_em` (goes.py lines 453-608): validate
satellite, abundances and equal array lengths, then require
`log10(temp)` inside the table's temperature column, where the check
also raises when `np.min(log10(temp))` is NaN (goes.py lines 595-601);
on success the emission measure is `longflux / splev(log10 temp) * 1e55`.
`lg` stands for `np.log10` on positive rationals. -/
def goes_get_chianti_em (splev lg : ℚ → ℚ) (modeltemp : List ℚ)
    (longflux : List ℚ) (temp : List NpF) (satellite : ℤ) (abundances : String) :
    Except GoesErr (List ℚ) :=
  if satellite < 1 then .error .valueError
  else if ¬(abundances = abundCoronal ∨ abundances = abundPhotospheric) then
    .error .valueError
  else if longflux.length ≠ temp.length then .error .valueError
  else if temp = [] ∨ modeltemp = [] then .error .valueError
  else
    let lt := temp.map (npLog10 lg)
    if npLtF (npMinF lt) (NpF.fin (npMinQ modeltemp)) = true ∨
        npLtF (NpF.fin (npMaxQ modeltemp)) (npMaxF lt) = true ∨
        isnanF (npMinF lt) = true then .error .valueError
    else
      .ok (List.zipWith
        (fun f t => f / splev (finValD (npLog10 lg t)) * 10 ^ 55) longflux temp)

/-- Model of `goes_chianti_tem` (goes.py lines 169-309): validate the
satellite number and equal flux array lengths, apply the
satellite/date corrections, compute the masked ratio, then obtain
temperatures and emission measures from the two table lookups. -/
def goes_chianti_tem (splevT pow10T : ℚ → ℚ) (mratioT : List ℚ)
    (splevE lg : ℚ → ℚ) (mtempE : List ℚ)
    (longflux shortflux : List ℚ) (satellite : ℤ) (date : PyDate)
    (abundances : String) : Except GoesErr (List ℚ × List ℚ) :=
  if satellite < 1 then .error .valueError
  else if longflux.length ≠ shortflux.length then .error .valueError
  else
    let pair := correctedFluxes satellite date longflux shortflux
    let ratios := computeRatios pair.2 pair.1
    match goes_get_chianti_temp splevT pow10T mratioT ratios satellite abundances with
    | .error e => .error e
    | .ok temps =>
      match goes_get_chianti_em splevE lg mtempE pair.1 (temps.map NpF.fin)
          satellite abundances with
      | .error e => .error e
      | .ok ems => .ok (temps, ems)

/-- The short-channel column label of a GOES lightcurve data table. -/
def colXrsa : String := "xrsa"

/-- The long-channel column label. -/
def colXrsb : String := "xrsb"

/-- The temperature column label added by `temp_em`. -/
def colTemperature : String := "temperature"

/-- The emission-measure column label added by `temp_em`. -/
def colEm : String := "em"

/-- The metadata key holding the instrument string. -/
def keyTelescop : String := "TELESCOP"

/-- A single space, the separator of the instrument string. -/
def spaceStr : String := " "

/-- A `GOESLightCurve` as the wrappers use it: a data table of named
numeric columns and a metadata mapping.  (The time index and the
observation date only get forwarded to the inner estimators, which the
wrapper models take as a collaborator parameter.) -/
structure GoesLC where
  columns : List (String × List ℚ)
  meta : List (String × String)
deriving DecidableEq

/-- An arbitrary Python object handed to a wrapper: either a
`GOESLightCurve` or something else (whose concrete type is summarised
by a tag string). -/
inductive PyObj where
  | lc (g : GoesLC)
  | other (tag : String)
deriving DecidableEq

/-- Look up a named column of the data table (pandas attribute access;
`none` models `AttributeError`). -/
def getColumn (cols : List (String × List ℚ)) (name : String) : Option (List ℚ) :=
  (cols.find? (fun c => c.1 == name)).map (fun c => c.2)

/-- `data[name] = v` on a pandas table: replace the column if present,
else append it. -/
def setColumn (cols : List (String × List ℚ)) (name : String) (v : List ℚ) :
    List (String × List ℚ) :=
  if (cols.find? (fun c => c.1 == name)).isSome then
    cols.map (fun c => if c.1 == name then (name, v) else c)
  else cols ++ [(name, v)]

/-- Metadata lookup (`meta[key]`; `none` models `KeyError`). -/
def metaGet (m : List (String × String)) (key : String) : Option String :=
  (m.find? (fun c => c.1 == key)).map (fun c => c.2)

/-- Model of `temp_em` (goes.py lines 90-167).  Wrong-typed input
raises `TypeError`; otherwise the long and short columns are read
(missing columns raise `AttributeError`), the satellite number is the
second whitespace-separated token of the instrument string (missing key
raises `KeyError`, missing token `IndexError`), and `goes_chianti_tem`
— passed in as the collaborator `tem`, already closed over its tables
and date — produces the temperature and emission-measure series.  The
result is the pair (caller's object after the call, returned object):
the code deep-copies before assigning the new columns, so the first
component is the unmodified input and the second is the copy with the
two columns added. -/
def temp_em (tem : String → List ℚ → List ℚ → Except GoesErr (List ℚ × List ℚ))
    (obj : PyObj) : Except GoesErr (GoesLC × GoesLC) :=
  match obj with
  | PyObj.other _ => .error .typeError
  | PyObj.lc g =>
    match getColumn g.columns colXrsb, getColumn g.columns colXrsa with
    | some xrsb, some xrsa =>
      match metaGet g.meta keyTelescop with
      | none => .error .keyError
      | some tel =>
        match (tel.splitOn spaceStr).get? 1 with
        | none => .error .indexError
        | some sat =>
          match tem sat xrsb xrsa with
          | .error e => .error e
          | .ok te =>
            .ok (g, { g with
              columns := setColumn (setColumn g.columns colTemperature te.1)
                colEm te.2 })
    | _, _ => .error .attributeError

/-- Model of `rad_loss_rate` (goes.py lines 610-700).  Its first
statement is `isinstance(goeslc, sunpy.lightcurve.GOESLightCurve)`, but
the module only ever imports submodules of sunpy (`from sunpy import
lightcurve` etc.) and never binds the name `sunpy` itself, so
evaluating `sunpy.lightcurve` raises `NameError` on every call, before
the argument is even inspected. -/
def rad_loss_rate (_obj : PyObj) : Except GoesErr (GoesLC × GoesLC) :=
  .error .nameError

/-- Model of `xray_luminosity` (goes.py lines 855-915): its first
statement references the unbound name `sunpy` in the same way, so every
call raises `NameError`. -/
def xray_luminosity (_obj : PyObj) : Except GoesErr (GoesLC × GoesLC) :=
  .error .nameError

/-- The identity on ℚ, used to instantiate abstract spline parameters
in concrete evaluations. -/
def idQ : ℚ → ℚ := fun x => x

/-- A date after the GOES-6 cutoff. -/
def dateLate : PyDate := ⟨2014, 4, 16⟩

/-- A date before the GOES-6 cutoff. -/
def dateEarly : PyDate := ⟨1983, 1, 1⟩

/-- A concrete lightcurve used to evaluate the wrapper models. -/
def sampleLC : GoesLC :=
  ⟨[(colXrsa, [7e-7, 7e-7]), (colXrsb, [7e-6, 7e-6])], [(keyTelescop, "GOES 15")]⟩

/-- A concrete stand-in for the `goes_chianti_tem` collaborator. -/
def temCollab (_sat : String) (_lf _sf : List ℚ) :
    Except GoesErr (List ℚ × List ℚ) :=
  .ok ([11, 11], [2, 2])

/-- The lightcurve `temp_em` returns on `sampleLC` with `temCollab`. -/
def sampleLCOut : GoesLC :=
  ⟨[(colXrsa, [7e-7, 7e-7]), (colXrsb, [7e-6, 7e-6]),
    (colTemperature, [11, 11]), (colEm, [2, 2])], [(keyTelescop, "GOES 15")]⟩

/-- The per-sample luminosity produced by `calc_xraylum` with
`piQ = 3`, `dist = 1` on a unit flux. -/
def lxcW : ℚ := 4 * 3 * (auMetres * 1) ^ 2 * 10 ^ 7 * 1

/-- A tag naming some non-GOESLightCurve Python object. -/
def strInt : String := "int"

/-- C1: in `goes_chianti_tem`, for every pair of equal-length flux
arrays, satellite id > 7 divides the (already date-corrected) long flux
by 0.70 and the short flux by 0.85 before the ratio is computed;
satellite id = 6 with a date before 1983-06-28 first scales the long
flux by 4.43/5.32; every other satellite/date combination leaves both
fluxes unscaled. -/
theorem c1_flux_scaling (satellite : ℤ) (date : PyDate) (lf sf : List ℚ) :
    (7 < satellite →
      correctedFluxes satellite date lf sf =
        (lf.map (· / 0.7), sf.map (· / 0.85))) ∧
    (satellite = 6 → pyDateLt date goes6Cutoff = true →
      correctedFluxes satellite date lf sf =
        (lf.map (· * (4.43 / 5.32)), sf)) ∧
    (¬ 7 < satellite → ¬(pyDateLt date goes6Cutoff = true ∧ satellite = 6) →
      correctedFluxes satellite date lf sf = (lf, sf)) := by
  refine ⟨fun h7 => ?_, fun h6 hd => ?_, fun h7 hnot => ?_⟩ <;>
    unfold correctedFluxes longfluxDateCorrected
  · have hne : ¬ (pyDateLt date goes6Cutoff = true ∧ satellite = 6) := by
      rintro ⟨-, rfl⟩; omega
    rw [if_neg hne, if_pos h7]
  · subst h6
    rw [if_neg (by omega : ¬ (7 : ℤ) < 6), if_pos ⟨hd, rfl⟩]
  · rw [if_neg hnot, if_neg h7]

/-- Witness for C1 at satellites 15, 6 (early date) and 7. -/
theorem c1_flux_scaling_witness :
    correctedFluxes 15 dateLate [7] [17] = ([7 / 0.7], [17 / 0.85]) ∧
    correctedFluxes 6 dateEarly [7] [17] = ([7 * (4.43 / 5.32)], [17]) ∧
    correctedFluxes 7 dateLate [7] [17] = ([7], [17]) :=
  ⟨(c1_flux_scaling 15 dateLate [7] [17]).1 (by decide),
   (c1_flux_scaling 6 dateEarly [7] [17]).2.1 rfl (by decide),
   (c1_flux_scaling 7 dateLate [7] [17]).2.2 (by decide) (by decide)⟩

/-- C2: in `goes_chianti_tem`, at every sample position where the
corrected short flux is below 1e-10 or the corrected long flux is below
3e-8, the ratio passed to the temperature lookup is exactly 0.003; at
every other position it is the elementwise quotient of the corrected
fluxes. -/
theorem c2_ratio_mask (sc lc : List ℚ) (i : Nat) (hi : i < sc.length)
    (hlen : sc.length = lc.length) :
    (computeRatios sc lc).getD i 0 =
      if sc.getD i 0 < 1e-10 ∨ lc.getD i 0 < 3e-8 then 0.003
      else sc.getD i 0 / lc.getD i 0 := by
  induction sc generalizing lc i with
  | nil => simp at hi
  | cons s st ih =>
    cases lc with
    | nil => simp at hlen
    | cons l lt =>
      cases i with
      | zero => simp [computeRatios]
      | succ n =>
        simp only [computeRatios, List.zipWith_cons_cons, List.getD_cons_succ]
        simpa only [computeRatios] using
          ih lt n (by simpa using hi) (by simpa using hlen)

/-- Witness for C2: a masked position and an unmasked position. -/
theorem c2_ratio_mask_witness :
    (computeRatios [1e-11, 0.5] [1, 1]).getD 0 0 = 0.003 ∧
    (computeRatios [1e-11, 0.5] [1, 1]).getD 1 0 = 0.5 / 1 :=
  ⟨(c2_ratio_mask [1e-11, 0.5] [1, 1] 0 (by decide)
      (by decide)).trans (by with_unfolding_all rfl),
   (c2_ratio_mask [1e-11, 0.5] [1, 1] 1 (by decide)
      (by decide)).trans (by with_unfolding_all rfl)⟩

/-- The length of the weight formula list always matches the input. -/
theorem msWeights_length (ts : List ℤ) : (msWeights ts).length = ts.length := by
  simp [msWeights]

/-- On two or more timestamps `_time_intervals` succeeds and returns
exactly the index formula `msWeights` (half differences floored to
whole milliseconds, converted to seconds). -/
theorem time_intervals_eq_msWeights (ts : List ℤ) (h2 : 2 ≤ ts.length) :
    time_intervals ts = .ok (msWeights ts) := by
  rcases eq_or_lt_of_le h2 with heq | h3
  · obtain ⟨a, b, rfl⟩ := List.length_eq_two.mp heq.symm
    unfold time_intervals
    rw [if_neg (by simp), if_pos (by simp)]
    simp [msWeights, msWeightAt, List.range_succ]
  · unfold time_intervals
    rw [if_neg (by omega), if_neg (by omega)]
    have hmid : (List.zipWith (fun a b => halfMs (a - b))
        (ts.drop 2) (ts.take (ts.length - 2))).length = ts.length - 2 := by
      rw [List.length_zipWith, List.length_drop, List.length_take]
      simp only [min_def]
      split_ifs <;> omega
    congr 1
    apply List.ext_getElem
    · simp only [List.length_map, List.length_append, List.length_cons,
        List.length_nil, hmid, msWeights_length]
      omega
    · intro i h1 hi2
      have hin : i < ts.length := by
        simpa [msWeights_length] using hi2
      simp only [List.getElem_map, msWeights, List.getElem_range]
      by_cases hi0 : i = 0
      · subst hi0
        rw [List.getElem_append_left (by simp), List.getElem_cons_zero]
        rw [msWeightAt, if_pos rfl]
      · by_cases hilast : i = ts.length - 1
        · rw [List.getElem_append_right
            (by simp only [List.length_cons, hmid]; omega)]
          rw [List.getElem_singleton]
          rw [msWeightAt, if_neg hi0, if_pos hilast]
        · obtain ⟨j, rfl⟩ : ∃ j, i = j + 1 := ⟨i - 1, by omega⟩
          rw [List.getElem_append_left
            (by simp only [List.length_cons, hmid]; omega : j + 1 <
              (halfMs (ts.getD 1 0 - ts.getD 0 0) ::
                List.zipWith (fun a b => halfMs (a - b))
                  (ts.drop 2) (ts.take (ts.length - 2))).length)]
          rw [List.getElem_cons_succ]
          rw [List.getElem_zipWith, List.getElem_drop, List.getElem_take]
          rw [← List.getD_eq_getElem ts 0 (show 2 + j < ts.length by omega),
            ← List.getD_eq_getElem ts 0 (show j < ts.length by omega)]
          rw [msWeightAt, if_neg hi0, if_neg hilast]
          rw [(by omega : 2 + j = j + 1 + 1)]
          simp only [Nat.add_sub_cancel]

/-- Halving an even millisecond count is exact. -/
theorem halfMs_even (d : ℤ) (h : d % 2 = 0) : (halfMs d : ℚ) = (d : ℚ) / 2 := by
  obtain ⟨k, rfl⟩ := Int.dvd_of_emod_eq_zero h
  rw [halfMs, Int.mul_fdiv_cancel_left _ (by norm_num)]
  push_cast
  ring

/-- C3 (corrected): on every strictly increasing sequence of at least 2
timestamps `_time_intervals` succeeds with a sequence of the same
length whose weights are the claimed half-difference formula with each
half-difference truncated (floored) to whole milliseconds before the
conversion to seconds; when all the adjacent differences are even
numbers of milliseconds — in particular on the spec's 2-second-spaced
examples — this coincides with the exact formula of the claim. -/
theorem c3_interval_weights (ts : List ℤ) (h2 : 2 ≤ ts.length)
    (hmono : List.Chain' (· < ·) ts) :
    time_intervals ts = .ok (msWeights ts) ∧
    (msWeights ts).length = ts.length ∧
    ((∀ i, i + 1 < ts.length → (ts.getD (i + 1) 0 - ts.getD i 0) % 2 = 0) →
      msWeights ts = specWeights ts) := by
  refine ⟨time_intervals_eq_msWeights ts h2, msWeights_length ts, fun heven => ?_⟩
  unfold msWeights specWeights
  apply List.map_congr_left
  intro i hi
  have hin : i < ts.length := List.mem_range.mp hi
  unfold msWeightAt specWeightAt
  by_cases hi0 : i = 0
  · subst hi0
    have he : (ts.getD 1 0 - ts.getD 0 0) % 2 = 0 := heven 0 (by omega)
    rw [if_pos rfl, if_pos rfl, halfMs_even _ he]
  · by_cases hilast : i = ts.length - 1
    · rw [if_neg hi0, if_neg hi0, if_pos hilast, if_pos hilast]
      have he := heven (ts.length - 2) (by omega)
      rw [(by omega : ts.length - 2 + 1 = ts.length - 1)] at he
      rw [halfMs_even _ he]
    · rw [if_neg hi0, if_neg hi0, if_neg hilast, if_neg hilast]
      have h1 := heven i (by omega)
      have h0 := heven (i - 1) (by omega)
      rw [(by omega : i - 1 + 1 = i)] at h0
      have he : (ts.getD (i + 1) 0 - ts.getD (i - 1) 0) % 2 = 0 := by omega
      rw [halfMs_even _ he]

/-- Witness for C3 at the spec's four-point example. -/
theorem c3_interval_weights_witness :
    time_intervals [0, 2000, 4000, 6000] = .ok (msWeights [0, 2000, 4000, 6000]) ∧
    msWeights [0, 2000, 4000, 6000] = [1, 2, 2, 1] ∧
    msWeights [0, 2000, 4000, 6000] = specWeights [0, 2000, 4000, 6000] :=
  ⟨(c3_interval_weights [0, 2000, 4000, 6000] (by decide)
      (by norm_num [List.chain'_cons])).1,
   by with_unfolding_all rfl,
   (c3_interval_weights [0, 2000, 4000, 6000] (by decide)
      (by norm_num [List.chain'_cons])).2.2
     (by intro i hi
         have h3 : i < 3 := by
           simp only [List.length_cons, List.length_nil] at hi
           omega
         interval_cases i <;> decide)⟩

/-- Counterexample to C3 as stated: on the strictly increasing input
[0ms, 1ms, 4ms] the code floors the half-differences to whole
milliseconds, returning [0, 0.002, 0.001] seconds instead of the
claimed exact [0.0005, 0.002, 0.0015]. -/
theorem c3_counterexample :
    time_intervals [0, 1, 4] = .ok [0, 1/500, 1/1000] ∧
    specWeights [0, 1, 4] = [1/2000, 1/500, 3/2000] ∧
    time_intervals [0, 1, 4] ≠ .ok (specWeights [0, 1, 4]) :=
  ⟨by with_unfolding_all rfl, by with_unfolding_all rfl,
   by with_unfolding_all decide⟩

theorem mapM_eq_ok_map {α β : Type} (f : α → Except GoesErr β) (g : α → β)
    (l : List α) (h : ∀ a ∈ l, f a = .ok (g a)) :
    l.mapM f = .ok (l.map g) := by
  induction l with
  | nil => rfl
  | cons a t ih =>
    simp only [List.mapM_cons, h a (List.mem_cons_self a t),
      ih (fun x hx => h x (List.mem_cons_of_mem a hx)), List.map_cons]
    rfl

theorem range_map_getLast {β : Type} (g : Nat → β) (n : Nat) (hn : 0 < n) :
    ((List.range n).map g).getLast? = some (g (n - 1)) := by
  obtain ⟨m, rfl⟩ : ∃ m, n = m + 1 := ⟨n - 1, by omega⟩
  rw [List.range_succ, List.map_append]
  simp

theorem cumulSums_last (rate dt prods : List ℚ)
    (hok : bmulQ rate dt = .ok prods) (h2 : 2 ≤ dt.length) :
    ∃ cum, cumulSums rate dt dt.length = .ok cum ∧
      cum.getLast? = some prods.sum := by
  unfold bmulQ at hok
  split_ifs at hok with hA hB hC
  · injection hok with hok
    refine ⟨_, mapM_eq_ok_map _
      (fun i => (List.zipWith (· * ·) (rate.take (i + 1)) (dt.take (i + 1))).sum)
      _ (fun i hi => ?_), ?_⟩
    · unfold bmulQ
      rw [if_pos (by rw [List.length_take, List.length_take, hA])]
      rfl
    · rw [range_map_getLast _ _ (by omega)]
      rw [List.take_of_length_le (by omega), List.take_of_length_le (by omega),
        hok]
  · obtain ⟨r, rfl⟩ := List.length_eq_one.mp hB
    injection hok with hok
    obtain ⟨d0, dt', rfl⟩ : ∃ d0 dt', dt = d0 :: dt' := by
      cases dt with
      | nil => simp at h2
      | cons d0 dt' => exact ⟨d0, dt', rfl⟩
    refine ⟨_, mapM_eq_ok_map _
      (fun i => (((d0 :: dt').take (i + 1)).map (fun y => r * y)).sum)
      _ (fun i hi => ?_), ?_⟩
    · cases i with
      | zero =>
        unfold bmulQ
        rw [if_pos (by simp)]
        rfl
      | succ m =>
        unfold bmulQ
        have him : m + 1 + 1 ≤ dt'.length + 1 := by
          have hmem := List.mem_range.mp hi
          simp only [List.length_cons] at hmem
          omega
        rw [if_neg (by
            simp only [List.length_take, List.length_cons, List.length_nil,
              min_def]
            split_ifs <;> omega),
          if_pos (by simp)]
        rfl
    · simp only [List.headD_cons] at hok
      rw [range_map_getLast _ _ (by omega)]
      rw [List.take_of_length_le (by omega), hok]
  · omega

theorem time_intervals_length (ts : List ℤ) (dt : List ℚ)
    (h : time_intervals ts = .ok dt) : dt.length = ts.length ∧ 2 ≤ ts.length := by
  have h2 : 2 ≤ ts.length := by
    by_contra hlt
    rw [time_intervals, if_pos (by omega)] at h
    exact absurd h (by simp)
  rw [time_intervals_eq_msWeights ts h2] at h
  injection h with h
  exact ⟨h ▸ msWeights_length ts, h2⟩

theorem calcRadLossCumulLast (splev : ℚ → ℚ) (mt temp em : List ℚ)
    (ts : List ℤ) (out : RadLossOut)
    (h : calc_rad_loss splev mt temp em (some ts) true = .ok out) :
    ∃ cum tot, out.radLossCumul = some cum ∧ out.radLossInt = some tot ∧
      cum.getLast? = some tot := by
  unfold calc_rad_loss at h
  cases hrate : calcRate splev mt temp em with
  | error e => rw [hrate] at h; simp at h
  | ok rate =>
    rw [hrate] at h
    try dsimp only at h
    by_cases hlen : temp.length ≠ em.length ∧ em.length ≠ ts.length
    · rw [if_pos hlen] at h; simp at h
    · rw [if_neg hlen] at h
      cases hti : time_intervals ts with
      | error e => rw [hti] at h; simp at h
      | ok dt =>
        rw [hti] at h
        try dsimp only at h
        by_cases hmin : npMinQ dt ≤ 0
        · rw [if_pos hmin] at h; simp at h
        · rw [if_neg hmin] at h
          cases hbm : bmulQ rate dt with
          | error e => rw [hbm] at h; simp at h
          | ok prods =>
            rw [hbm] at h
            try dsimp only at h
            rw [if_pos rfl] at h
            cases hcum : cumulSums rate dt ts.length with
            | error e => rw [hcum] at h; simp at h
            | ok cum =>
              rw [hcum] at h
              try dsimp only at h
              injection h with h
              subst h
              obtain ⟨hdt, hts2⟩ := time_intervals_length ts dt hti
              obtain ⟨cum2, hcum2, hlast⟩ :=
                cumulSums_last rate dt prods hbm (by omega)
              rw [hdt] at hcum2
              rw [hcum2] at hcum
              injection hcum with hcum
              subst hcum
              exact ⟨cum2, prods.sum, rfl, rfl, hlast⟩

theorem goesLxCumulLast (piQ dist : ℚ) (lf sf : List ℚ) (ts : List ℤ) (lout : LxOut)
    (h : goes_lx piQ dist lf sf (some ts) true = .ok lout) :
    (∃ cum tot, lout.longlumCumul = some cum ∧ lout.longlumInt = some tot ∧
      cum.getLast? = some tot) ∧
    (∃ cum tot, lout.shortlumCumul = some cum ∧ lout.shortlumInt = some tot ∧
      cum.getLast? = some tot) := by
  unfold goes_lx at h
  try dsimp only at h
  by_cases hlen : lf.length ≠ sf.length ∧ sf.length ≠ ts.length
  · rw [if_pos hlen] at h; simp at h
  · rw [if_neg hlen] at h
    cases hti : time_intervals ts with
    | error e => rw [hti] at h; simp at h
    | ok dt =>
      rw [hti] at h
      try dsimp only at h
      by_cases hmin : npMinQ dt ≤ 0
      · rw [if_pos hmin] at h; simp at h
      · rw [if_neg hmin] at h
        cases hbl : bmulQ (calc_xraylum piQ dist lf) dt with
        | error e => rw [hbl] at h; simp at h
        | ok lp =>
          rw [hbl] at h
          try dsimp only at h
          cases hbs : bmulQ (calc_xraylum piQ dist sf) dt with
          | error e => rw [hbs] at h; simp at h
          | ok sp =>
            rw [hbs] at h
            try dsimp only at h
            rw [if_pos rfl] at h
            cases hcl : cumulSums (calc_xraylum piQ dist lf) dt ts.length with
            | error e => rw [hcl] at h; simp at h
            | ok lcum =>
              rw [hcl] at h
              try dsimp only at h
              cases hcs : cumulSums (calc_xraylum piQ dist sf) dt ts.length with
              | error e => rw [hcs] at h; simp at h
              | ok scum =>
                rw [hcs] at h
                try dsimp only at h
                injection h with h
                subst h
                obtain ⟨hdt, hts2⟩ := time_intervals_length ts dt hti
                obtain ⟨lc2, hlc2, hllast⟩ := cumulSums_last _ dt lp hbl (by omega)
                obtain ⟨sc2, hsc2, hslast⟩ := cumulSums_last _ dt sp hbs (by omega)
                rw [hdt] at hlc2 hsc2
                rw [hlc2] at hcl
                rw [hsc2] at hcs
                injection hcl with hcl
                injection hcs with hcs
                subst hcl
                subst hcs
                exact ⟨⟨lc2, lp.sum, rfl, rfl, hllast⟩,
                  ⟨sc2, sp.sum, rfl, rfl, hslast⟩⟩

/-- C4: whenever `calc_rad_loss` (resp. `goes_lx`) is called with
timestamps and the cumulative flag and returns, the last element of the
returned cumulative energy sequence equals the integrated total
returned in the same call (for `goes_lx`: in each channel). -/
theorem c4_cumulative_matches_total (splev : ℚ → ℚ) (mt temp em : List ℚ)
    (ts : List ℤ) (piQ dist : ℚ) (lf sf : List ℚ) (out : RadLossOut)
    (lout : LxOut) :
    (calc_rad_loss splev mt temp em (some ts) true = .ok out →
      ∃ cum tot, out.radLossCumul = some cum ∧ out.radLossInt = some tot ∧
        cum.getLast? = some tot) ∧
    (goes_lx piQ dist lf sf (some ts) true = .ok lout →
      (∃ cum tot, lout.longlumCumul = some cum ∧ lout.longlumInt = some tot ∧
        cum.getLast? = some tot) ∧
      (∃ cum tot, lout.shortlumCumul = some cum ∧ lout.shortlumInt = some tot ∧
        cum.getLast? = some tot)) :=
  ⟨calcRadLossCumulLast splev mt temp em ts out,
   goesLxCumulLast piQ dist lf sf ts lout⟩

/-- Witness for C4 on concrete cumulative calls. -/
theorem c4_cumulative_matches_total_witness :
    calc_rad_loss idQ [0, 10000000] [1, 1] [1, 1] (some [0, 2000]) true =
      .ok ⟨[1000000, 1000000], some 2000000, some [1000000, 2000000]⟩ ∧
    goes_lx 3 1 [1, 1] [1, 1] (some [0, 2000]) true =
      .ok ⟨[lxcW, lxcW], [lxcW, lxcW], some (2 * lxcW), some (2 * lxcW),
        some [lxcW, 2 * lxcW], some [lxcW, 2 * lxcW], some [1, 1]⟩ ∧
    (∃ cum tot,
      (⟨[1000000, 1000000], some 2000000, some [1000000, 2000000]⟩ :
        RadLossOut).radLossCumul = some cum ∧
      (⟨[1000000, 1000000], some 2000000, some [1000000, 2000000]⟩ :
        RadLossOut).radLossInt = some tot ∧ cum.getLast? = some tot) ∧
    (∃ cum tot,
      (⟨[lxcW, lxcW], [lxcW, lxcW], some (2 * lxcW), some (2 * lxcW),
        some [lxcW, 2 * lxcW], some [lxcW, 2 * lxcW], some [1, 1]⟩ :
        LxOut).longlumCumul = some cum ∧
      (⟨[lxcW, lxcW], [lxcW, lxcW], some (2 * lxcW), some (2 * lxcW),
        some [lxcW, 2 * lxcW], some [lxcW, 2 * lxcW], some [1, 1]⟩ :
        LxOut).longlumInt = some tot ∧ cum.getLast? = some tot) :=
  have h1 : calc_rad_loss idQ [0, 10000000] [1, 1] [1, 1] (some [0, 2000]) true =
      .ok ⟨[1000000, 1000000], some 2000000, some [1000000, 2000000]⟩ := by
    with_unfolding_all rfl
  have h2 : goes_lx 3 1 [1, 1] [1, 1] (some [0, 2000]) true =
      .ok ⟨[lxcW, lxcW], [lxcW, lxcW], some (2 * lxcW), some (2 * lxcW),
        some [lxcW, 2 * lxcW], some [lxcW, 2 * lxcW], some [1, 1]⟩ := by
    with_unfolding_all rfl
  ⟨h1,
   h2,
   (c4_cumulative_matches_total idQ [0, 10000000] [1, 1] [1, 1] [0, 2000]
      3 1 [1, 1] [1, 1]
      ⟨[1000000, 1000000], some 2000000, some [1000000, 2000000]⟩
      ⟨[lxcW, lxcW], [lxcW, lxcW], some (2 * lxcW), some (2 * lxcW),
        some [lxcW, 2 * lxcW], some [lxcW, 2 * lxcW], some [1, 1]⟩).1 h1,
   ((c4_cumulative_matches_total idQ [0, 10000000] [1, 1] [1, 1] [0, 2000]
      3 1 [1, 1] [1, 1]
      ⟨[1000000, 1000000], some 2000000, some [1000000, 2000000]⟩
      ⟨[lxcW, lxcW], [lxcW, lxcW], some (2 * lxcW), some (2 * lxcW),
        some [lxcW, 2 * lxcW], some [lxcW, 2 * lxcW], some [1, 1]⟩).2 h2).1⟩

/-- C5 (code bug): the chained length check
`len(temp) != len(em) != len(obstime)` in `calc_rad_loss` (and the same
check in `goes_lx`) raises only when both adjacent inequalities hold.
With `temp` and `em` of length 1 and three timestamps the lengths are
not all equal, yet the check passes and numpy length-1 broadcasting
lets the whole call succeed, returning a result instead of raising. -/
theorem c5_length_check_bypassed :
    (¬ (([(1 : ℚ)]).length = ([(2 : ℚ)]).length ∧
      ([(2 : ℚ)]).length = ([0, 2000, 4000] : List ℤ).length)) ∧
    calc_rad_loss idQ [0, 10000000] [1] [2] (some [0, 2000, 4000]) false =
      .ok ⟨[2000000], some 8000000, none⟩ ∧
    goes_lx 3 1 [1] [1] (some [0, 2000, 4000]) false =
      .ok ⟨[lxcW], [lxcW], some (4 * lxcW), some (4 * lxcW),
        none, none, some [1, 2, 1]⟩ :=
  ⟨by decide, by with_unfolding_all rfl, by with_unfolding_all rfl⟩

/-- C6 (amended): requesting cumulative output without timestamps
raises an error in `calc_rad_loss` and `goes_lx` — but the Python class
is `IOError`, not the `ValueError` class the module uses for its other
input-validation failures; with the cumulative flag off and no
timestamps the call succeeds and returns only the per-sample outputs. -/
theorem c6_cumulative_without_times (splev : ℚ → ℚ) (mt temp em : List ℚ)
    (out : RadLossOut) (piQ dist : ℚ) (lf sf : List ℚ)
    (h : calc_rad_loss splev mt temp em none false = .ok out) :
    calc_rad_loss splev mt temp em none true = .error .ioError ∧
    out.radLossInt = none ∧ out.radLossCumul = none ∧
    goes_lx piQ dist lf sf none true = .error .ioError ∧
    ∃ lout, goes_lx piQ dist lf sf none false = .ok lout ∧
      lout.longlumInt = none ∧ lout.shortlumInt = none ∧
      lout.longlumCumul = none ∧ lout.shortlumCumul = none := by
  unfold calc_rad_loss at h ⊢
  cases hrate : calcRate splev mt temp em with
  | error e => rw [hrate] at h; simp at h
  | ok rate =>
    rw [hrate] at h
    try dsimp only at h
    rw [if_neg (by simp)] at h
    injection h with h
    subst h
    refine ⟨?_, rfl, rfl, ?_, ?_⟩
    · try dsimp only
      rw [if_pos rfl]
    · unfold goes_lx
      try dsimp only
      rw [if_pos rfl]
    · refine ⟨⟨calc_xraylum piQ dist lf, calc_xraylum piQ dist sf,
        none, none, none, none, none⟩, ?_, rfl, rfl, rfl, rfl⟩
      unfold goes_lx
      try dsimp only
      rw [if_neg (by simp)]

/-- Witness for C6 at a concrete successful non-cumulative call. -/
theorem c6_cumulative_without_times_witness :
    calc_rad_loss idQ [0, 10000000] [1] [1] none false =
      .ok ⟨[1000000], none, none⟩ ∧
    calc_rad_loss idQ [0, 10000000] [1] [1] none true = .error .ioError ∧
    goes_lx 3 1 [1] [1] none true = .error .ioError :=
  have hh : calc_rad_loss idQ [0, 10000000] [1] [1] none false =
      .ok ⟨[1000000], none, none⟩ := by with_unfolding_all rfl
  ⟨hh,
   (c6_cumulative_without_times idQ [0, 10000000] [1] [1]
      ⟨[1000000], none, none⟩ 3 1 [1] [1] hh).1,
   (c6_cumulative_without_times idQ [0, 10000000] [1] [1]
      ⟨[1000000], none, none⟩ 3 1 [1] [1] hh).2.2.2.1⟩

/-- Counterexample to C6 as stated: the error raised when
cumulative=True and timestamps are absent is Python's `IOError`, not a
failure of the `ValueError` class used by every other validation check
of the module (which is what the spec's ValidationError denotes). -/
theorem c6_counterexample :
    calc_rad_loss idQ [0, 10000000] [1] [1] none true = .error .ioError ∧
    goes_lx 3 1 [1] [1] none true = .error .ioError ∧
    GoesErr.ioError ≠ GoesErr.valueError :=
  ⟨by with_unfolding_all rfl, by with_unfolding_all rfl, by decide⟩

theorem foldl_min_le_init (xs : List ℚ) (a : ℚ) : xs.foldl min a ≤ a := by
  induction xs generalizing a with
  | nil => simp
  | cons x t ih => exact le_trans (ih (min a x)) (min_le_left a x)

theorem foldl_min_le_mem (xs : List ℚ) (x : ℚ) (hx : x ∈ xs) (a : ℚ) :
    xs.foldl min a ≤ x := by
  induction xs generalizing a with
  | nil => simp at hx
  | cons y t ih =>
    rcases List.mem_cons.mp hx with rfl | hx2
    · exact le_trans (foldl_min_le_init t (min a x)) (min_le_right a x)
    · exact ih hx2 (min a y)

theorem le_foldl_min (xs : List ℚ) (a c : ℚ) (ha : c ≤ a)
    (h : ∀ x ∈ xs, c ≤ x) : c ≤ xs.foldl min a := by
  induction xs generalizing a with
  | nil => simpa using ha
  | cons y t ih =>
    exact ih (min a y) (le_min ha (h y (by simp)))
      (fun x hx => h x (by simp [hx]))

theorem init_le_foldl_max (xs : List ℚ) (a : ℚ) : a ≤ xs.foldl max a := by
  induction xs generalizing a with
  | nil => simp
  | cons x t ih => exact le_trans (le_max_left a x) (ih (max a x))

theorem mem_le_foldl_max (xs : List ℚ) (x : ℚ) (hx : x ∈ xs) (a : ℚ) :
    x ≤ xs.foldl max a := by
  induction xs generalizing a with
  | nil => simp at hx
  | cons y t ih =>
    rcases List.mem_cons.mp hx with rfl | hx2
    · exact le_trans (le_max_right a x) (init_le_foldl_max t (max a x))
    · exact ih hx2 (max a y)

theorem foldl_max_le (xs : List ℚ) (a c : ℚ) (ha : a ≤ c)
    (h : ∀ x ∈ xs, x ≤ c) : xs.foldl max a ≤ c := by
  induction xs generalizing a with
  | nil => simpa using ha
  | cons y t ih =>
    exact ih (max a y) (max_le ha (h y (by simp)))
      (fun x hx => h x (by simp [hx]))

/-- `np.min` is a lower bound of the array. -/
theorem npMinQ_le (l : List ℚ) (x : ℚ) (hx : x ∈ l) : npMinQ l ≤ x := by
  cases l with
  | nil => simp at hx
  | cons y t =>
    rcases List.mem_cons.mp hx with rfl | hx2
    · exact foldl_min_le_init t x
    · exact foldl_min_le_mem t x hx2 y

/-- Any lower bound of a nonempty array bounds `np.min`. -/
theorem le_npMinQ (l : List ℚ) (c : ℚ) (hl : l ≠ []) (h : ∀ x ∈ l, c ≤ x) :
    c ≤ npMinQ l := by
  cases l with
  | nil => exact absurd rfl hl
  | cons y t =>
    exact le_foldl_min t y c (h y (by simp)) (fun x hx => h x (by simp [hx]))

/-- `np.max` is an upper bound of the array. -/
theorem le_npMaxQ (l : List ℚ) (x : ℚ) (hx : x ∈ l) : x ≤ npMaxQ l := by
  cases l with
  | nil => simp at hx
  | cons y t =>
    rcases List.mem_cons.mp hx with rfl | hx2
    · exact init_le_foldl_max t x
    · exact mem_le_foldl_max t x hx2 y

/-- Any upper bound of a nonempty array bounds `np.max`. -/
theorem npMaxQ_le (l : List ℚ) (c : ℚ) (hl : l ≠ []) (h : ∀ x ∈ l, x ≤ c) :
    npMaxQ l ≤ c := by
  cases l with
  | nil => exact absurd rfl hl
  | cons y t =>
    exact foldl_max_le t y c (h y (by simp)) (fun x hx => h x (by simp [hx]))

/-- C7: the flux-ratio-to-temperature lookup raises its domain error
exactly when some ratio lies strictly outside the table's
[min, max] ratio range; ratio arrays lying within the range — boundary
values included — succeed with the spline evaluated at every ratio (no
extrapolation path exists). -/
theorem c7_temp_domain_check (splev pow10 : ℚ → ℚ) (mratios ratios : List ℚ)
    (satellite : ℤ) (ab : String) (hs : 1 ≤ satellite)
    (hab : ab = abundCoronal ∨ ab = abundPhotospheric)
    (hr : ratios ≠ []) (hm : mratios ≠ []) :
    ((∀ r ∈ ratios, npMinQ mratios ≤ r ∧ r ≤ npMaxQ mratios) →
      goes_get_chianti_temp splev pow10 mratios ratios satellite ab =
        .ok (ratios.map (fun r => pow10 (splev r)))) ∧
    ((∃ r ∈ ratios, r < npMinQ mratios ∨ npMaxQ mratios < r) →
      goes_get_chianti_temp splev pow10 mratios ratios satellite ab =
        .error .valueError) := by
  have hsat : ¬ satellite < 1 := by omega
  have hab2 : ¬ ¬ (ab = abundCoronal ∨ ab = abundPhotospheric) :=
    not_not_intro hab
  constructor
  · intro hin
    unfold goes_get_chianti_temp
    rw [if_neg hsat, if_neg hab2, if_neg (by simp [hr, hm]),
      if_neg (not_or_intro
        (not_lt.mpr (le_npMinQ ratios (npMinQ mratios) hr
          (fun x hx => (hin x hx).1)))
        (not_lt.mpr (npMaxQ_le ratios (npMaxQ mratios) hr
          (fun x hx => (hin x hx).2))))]
  · rintro ⟨r, hrmem, hout⟩
    unfold goes_get_chianti_temp
    rw [if_neg hsat, if_neg hab2, if_neg (by simp [hr, hm]), if_pos ?_]
    rcases hout with hlt | hgt
    · exact Or.inl (lt_of_le_of_lt (npMinQ_le ratios r hrmem) hlt)
    · exact Or.inr (lt_of_lt_of_le hgt (le_npMaxQ ratios r hrmem))

/-- Witness for C7: an in-range array hitting both boundary values
succeeds; an out-of-range value raises. -/
theorem c7_temp_domain_check_witness :
    goes_get_chianti_temp idQ idQ [1/100, 1] [1/100, 1] 15 abundCoronal =
      .ok ([1/100, 1].map (fun r => idQ (idQ r))) ∧
    goes_get_chianti_temp idQ idQ [1/100, 1] [2] 15 abundCoronal =
      .error .valueError :=
  ⟨(c7_temp_domain_check idQ idQ [1/100, 1] [1/100, 1] 15 abundCoronal
      (by decide) (Or.inl rfl) (by simp) (by simp)).1
      (by with_unfolding_all decide),
   (c7_temp_domain_check idQ idQ [1/100, 1] [2] 15 abundCoronal
      (by decide) (Or.inl rfl) (by simp) (by simp)).2
      ⟨2, by simp, Or.inr (by with_unfolding_all decide)⟩⟩

/-- C8 (amended): `_time_intervals` raises (an `IOError`, not a
`ValueError`) only for inputs of fewer than 2 timestamps; it performs no
chronology check itself and returns non-positive weights for
non-chronological input, and it is the consuming integration paths
`calc_rad_loss` and `goes_lx` that raise `ValueError` when the minimum
computed weight is ≤ 0. -/
theorem c8_interval_validation (ts : List ℤ) (a b : ℤ) (splev : ℚ → ℚ)
    (mt temp em : List ℚ) (rate : List ℚ) (ts2 : List ℤ) (dts : List ℚ)
    (cum : Bool) (piQ dist : ℚ) (lf sf : List ℚ)
    (h1 : ts.length < 2) (hba : b ≤ a)
    (hcr : calcRate splev mt temp em = .ok rate)
    (hlen : ¬ (temp.length ≠ em.length ∧ em.length ≠ ts2.length))
    (hlen2 : ¬ (lf.length ≠ sf.length ∧ sf.length ≠ ts2.length))
    (hti : time_intervals ts2 = .ok dts) (hmin : npMinQ dts ≤ 0) :
    time_intervals ts = .error .ioError ∧
    (∃ w, time_intervals [a, b] = .ok w ∧ ∀ x ∈ w, x ≤ 0) ∧
    calc_rad_loss splev mt temp em (some ts2) cum = .error .valueError ∧
    goes_lx piQ dist lf sf (some ts2) cum = .error .valueError := by
  refine ⟨?_, ?_, ?_, ?_⟩
  · rw [time_intervals, if_pos (by omega)]
  · have hw : time_intervals [a, b] = .ok
        [(halfMs (b - a) : ℚ) / 1000, (halfMs (b - a) : ℚ) / 1000] := by
      rw [time_intervals, if_neg (by simp), if_pos (by simp)]
      simp
    refine ⟨_, hw, ?_⟩
    have hh : halfMs (b - a) ≤ 0 := by
      rw [halfMs, Int.fdiv_eq_ediv _ (by norm_num)]
      omega
    have hq : ((halfMs (b - a) : ℤ) : ℚ) ≤ 0 := by exact_mod_cast hh
    intro x hx
    rcases List.mem_cons.mp hx with rfl | hx2
    · linarith
    · rcases List.mem_cons.mp hx2 with rfl | hx3
      · linarith
      · simp at hx3
  · unfold calc_rad_loss
    rw [hcr]
    try dsimp only
    rw [if_neg hlen, hti]
    try dsimp only
    rw [if_pos hmin]
  · unfold goes_lx
    try dsimp only
    rw [if_neg hlen2, hti]
    try dsimp only
    rw [if_pos hmin]

/-- Witness for C8 at concrete inputs (a one-element timestamp array, a
decreasing pair, and a non-chronological triple fed to both
integrators). -/
theorem c8_interval_validation_witness :
    time_intervals [5] = .error .ioError ∧
    (∃ w, time_intervals [2000, 0] = .ok w ∧ ∀ x ∈ w, x ≤ 0) ∧
    calc_rad_loss idQ [0, 10000000] [1] [1] (some [0, 2000, 0]) false =
      .error .valueError ∧
    goes_lx 3 1 [1] [1] (some [0, 2000, 0]) false = .error .valueError :=
  have hc := c8_interval_validation [5] 2000 0 idQ [0, 10000000] [1] [1]
    [1000000] [0, 2000, 0] [1, 0, -1] false 3 1 [1] [1]
    (by decide) (by decide) (by with_unfolding_all rfl) (by decide) (by decide)
    (by with_unfolding_all rfl) (by with_unfolding_all decide)
  ⟨hc.1, hc.2.1, hc.2.2.1, hc.2.2.2⟩

/-- Counterexample to C8 as stated: `_time_intervals` itself does not
raise on a decreasing timestamp pair — it returns the negative weights
— and the too-few-timestamps failure is an `IOError`, not a
`ValueError`-class failure. -/
theorem c8_counterexample :
    time_intervals [2000, 0] = .ok [-1, -1] ∧
    time_intervals [5] = .error .ioError ∧
    GoesErr.ioError ≠ GoesErr.valueError :=
  ⟨by with_unfolding_all rfl, by with_unfolding_all rfl, by decide⟩

/-- C9 (code bug): `temp_em` satisfies the wrapper contract —
`TypeError` for every non-GOESLightCurve input, and on success a new
copy with the temperature and emission-measure columns added while the
caller's object is returned unmodified — but `rad_loss_rate` and
`xray_luminosity` evaluate the unbound module name `sunpy` in their
isinstance check, so they raise `NameError` on every input, well-typed
or not, and never reach either the type check or the copy. -/
theorem c9_wrapper_contract :
    (∀ (tem : String → List ℚ → List ℚ → Except GoesErr (List ℚ × List ℚ))
      (tag : String), temp_em tem (PyObj.other tag) = .error .typeError) ∧
    temp_em temCollab (PyObj.lc sampleLC) = .ok (sampleLC, sampleLCOut) ∧
    (∀ obj : PyObj, rad_loss_rate obj = .error .nameError ∧
      xray_luminosity obj = .error .nameError) ∧
    GoesErr.nameError ≠ GoesErr.typeError :=
  ⟨fun _ _ => rfl, by with_unfolding_all rfl, fun _ => ⟨rfl, rfl⟩, by decide⟩

theorem fminF_nan_left (b : NpF) : fminF NpF.nan b = NpF.nan := by
  cases b <;> rfl

theorem fminF_nan_right (a : NpF) : fminF a NpF.nan = NpF.nan := by
  cases a <;> rfl

theorem fminF_ninf_left (b : NpF) (hb : b ≠ NpF.nan) :
    fminF NpF.ninf b = NpF.ninf := by
  cases b with
  | nan => exact absurd rfl hb
  | ninf => rfl
  | fin q => rfl
  | inf => rfl

theorem fminF_ninf_right (a : NpF) (ha : a ≠ NpF.nan) :
    fminF a NpF.ninf = NpF.ninf := by
  cases a with
  | nan => exact absurd rfl ha
  | ninf => rfl
  | fin q =>
    show (if npLtF (NpF.fin q) NpF.ninf then NpF.fin q else NpF.ninf) = NpF.ninf
    rfl
  | inf => rfl

theorem fminF_ne_nan (a b : NpF) (ha : a ≠ NpF.nan) (hb : b ≠ NpF.nan) :
    fminF a b ≠ NpF.nan := by
  cases a <;> cases b <;> simp [fminF] <;> first
    | exact absurd rfl ha
    | exact absurd rfl hb
    | (split <;> simp)

theorem foldl_fminF_nan (xs : List NpF) :
    ∀ a, (a = NpF.nan ∨ NpF.nan ∈ xs) → xs.foldl fminF a = NpF.nan := by
  induction xs with
  | nil =>
    intro a h
    rcases h with rfl | h
    · rfl
    · simp at h
  | cons y t ih =>
    intro a h
    rcases h with rfl | h
    · exact ih _ (Or.inl (fminF_nan_left y))
    · rcases List.mem_cons.mp h with rfl | h2
      · exact ih _ (Or.inl (fminF_nan_right a))
      · exact ih _ (Or.inr h2)

theorem foldl_fminF_ninf (xs : List NpF) :
    ∀ a, (a = NpF.ninf ∨ NpF.ninf ∈ xs) → a ≠ NpF.nan → NpF.nan ∉ xs →
      xs.foldl fminF a = NpF.ninf := by
  induction xs with
  | nil =>
    intro a h ha hn
    rcases h with rfl | h
    · rfl
    · simp at h
  | cons y t ih =>
    intro a h ha hn
    have hy : y ≠ NpF.nan := fun hy => hn (by simp [hy])
    have hn2 : NpF.nan ∉ t := fun hmem => hn (by simp [hmem])
    rcases h with rfl | h
    · exact ih _ (Or.inl (fminF_ninf_left y hy))
        (by rw [fminF_ninf_left y hy]; decide) hn2
    · rcases List.mem_cons.mp h with rfl | h2
      · exact ih _ (Or.inl (fminF_ninf_right a ha))
          (by rw [fminF_ninf_right a ha]; decide) hn2
      · exact ih _ (Or.inr h2) (fminF_ne_nan a y ha hy) hn2

/-- `np.min` of an array containing NaN is NaN. -/
theorem npMinF_nan (l : List NpF) (h : NpF.nan ∈ l) : npMinF l = NpF.nan := by
  cases l with
  | nil => simp at h
  | cons y t =>
    rcases List.mem_cons.mp h with rfl | h2
    · exact foldl_fminF_nan t _ (Or.inl rfl)
    · exact foldl_fminF_nan t _ (Or.inr h2)

/-- `np.min` of a NaN-free array containing -inf is -inf. -/
theorem npMinF_ninf (l : List NpF) (hm : NpF.ninf ∈ l) (hn : NpF.nan ∉ l) :
    npMinF l = NpF.ninf := by
  cases l with
  | nil => simp at hm
  | cons y t =>
    have hy : y ≠ NpF.nan := fun h => hn (by simp [h])
    have hn2 : NpF.nan ∉ t := fun h => hn (by simp [h])
    rcases List.mem_cons.mp hm with rfl | h2
    · exact foldl_fminF_ninf t _ (Or.inl rfl) (by decide) hn2
    · exact foldl_fminF_ninf t _ (Or.inr h2) hy hn2

/-- C10: the emission-measure estimator rejects every temperature array
containing a NaN (the explicit `isnan(min(log10 temp))` disjunct of the
check catches it even though NaN compares false against both range
bounds) and every array containing a non-positive temperature (negative
values give a NaN logarithm caught the same way; zero gives a -inf
logarithm caught by the lower range bound), raising the same
out-of-range `ValueError` in all cases instead of returning NaN
emission measures. -/
theorem c10_nan_rejection (splev lg : ℚ → ℚ) (mtemp lflux : List ℚ)
    (temp : List NpF) (satellite : ℤ) (ab : String)
    (hs : 1 ≤ satellite) (hab : ab = abundCoronal ∨ ab = abundPhotospheric)
    (hlen : lflux.length = temp.length) (hm : mtemp ≠ [])
    (hbad : NpF.nan ∈ temp ∨ ∃ q : ℚ, q ≤ 0 ∧ NpF.fin q ∈ temp) :
    goes_get_chianti_em splev lg mtemp lflux temp satellite ab =
      .error .valueError := by
  have htne : temp ≠ [] := by
    rcases hbad with h | ⟨q, hq, h⟩ <;> exact List.ne_nil_of_mem h
  unfold goes_get_chianti_em
  rw [if_neg (by omega), if_neg (not_not_intro hab), if_neg (not_not_intro hlen),
    if_neg (by simp [htne, hm]), if_pos ?_]
  rcases hbad with h | ⟨q, hq, h⟩
  · have hmem : NpF.nan ∈ temp.map (npLog10 lg) := by
      have := List.mem_map_of_mem (npLog10 lg) h
      simpa [npLog10] using this
    exact Or.inr (Or.inr (by rw [npMinF_nan _ hmem]; rfl))
  · rcases lt_or_eq_of_le hq with hqlt | hqeq
    · have hmem : NpF.nan ∈ temp.map (npLog10 lg) := by
        have := List.mem_map_of_mem (npLog10 lg) h
        simpa [npLog10, if_pos hqlt] using this
      exact Or.inr (Or.inr (by rw [npMinF_nan _ hmem]; rfl))
    · subst hqeq
      have hmem : NpF.ninf ∈ temp.map (npLog10 lg) := by
        have := List.mem_map_of_mem (npLog10 lg) h
        simpa [npLog10] using this
      by_cases hnan : NpF.nan ∈ temp.map (npLog10 lg)
      · exact Or.inr (Or.inr (by rw [npMinF_nan _ hnan]; rfl))
      · exact Or.inl (by rw [npMinF_ninf _ hmem hnan]; rfl)

/-- Witness for C10: a NaN temperature and a negative temperature each
raise the domain `ValueError`. -/
theorem c10_nan_rejection_witness :
    goes_get_chianti_em idQ idQ [0, 2] [1, 1] [NpF.fin 1, NpF.nan] 8
      abundCoronal = .error .valueError ∧
    goes_get_chianti_em idQ idQ [0, 2] [1, 1] [NpF.fin 1, NpF.fin (-1)] 8
      abundCoronal = .error .valueError :=
  ⟨c10_nan_rejection idQ idQ [0, 2] [1, 1] [NpF.fin 1, NpF.nan] 8 abundCoronal
      (by decide) (Or.inl rfl) rfl (by simp) (Or.inl (by simp)),
   c10_nan_rejection idQ idQ [0, 2] [1, 1] [NpF.fin 1, NpF.fin (-1)] 8
      abundCoronal (by decide) (Or.inl rfl) rfl (by simp)
      (Or.inr ⟨-1, by norm_num, by simp⟩)⟩
